import Mathlib

/-!
Verification development for `src/mangadex_load_chapter.js` (a userscript that
overlays a latest-chapter badge on MangaDex listing cards, with a
concurrency-limited job queue, two-tier retries, and a minimum-chapter filter).

The JavaScript source is shallowly embedded below.  JavaScript runs in a single
cooperative execution context, so stateful code (the job runner) is embedded as
a small-step transition system whose atomic steps are exactly the synchronous
blocks between `await` points of the source; pure code (chapter normalization,
`parseFloat`, visibility, the retry loops) is embedded as executable functions.
JS numbers that matter here are exact decimals well inside double precision, so
they are modelled as rationals; JS dynamic values reaching the chapter field
are modelled by `JSValue` (null/undefined collapse to `.null`, a number carries
its `String(n)` rendering).
-/

namespace Mangadex

/-! ### CONFIG constants (source lines 20-28) -/

def CONCURRENCY_LIMIT : Nat := 6

def SHORT_RETRY_BASE : Nat := 2000

def SHORT_RETRY_COUNT : Nat := 10

def LONG_RETRY_BASE : Nat := 5000

def LONG_RETRY_MAX : Nat := 6

/-! ### JS values reaching the chapter field

`j.data?.[0]?.attributes?.chapter` is `null`/`undefined` (both compare `== null`
and behave identically here, collapsed into `.null`), a string, or a number.
A number is carried together with its decimal rendering `String(n)`, which is
all the code ever inspects of it. -/

inductive JSValue
  | null
  | str (s : String)
  | num (render : String)
deriving DecidableEq

/-- `String(v)` for the values above (`String(null) = "null"`). -/
def jsToString : JSValue → String
  | .null => "null"
  | .str s => s
  | .num r => r

/-! ### The one-shot pattern `/one[\s-]?shot/i` (source line 85)

`RegExp.test` searches for the pattern anywhere in the string; the `i` flag is
modelled by lowercasing (the pattern letters are ASCII).  `\s` is modelled by
`Char.isWhitespace` (space, tab, CR, LF — the whitespace that can occur in the
API's chapter strings). -/

/-- Does `one[\s-]?shot` (already lowercased) match at the head of the list? -/
def oneShotAt : List Char → Bool
  | 'o' :: 'n' :: 'e' :: 's' :: 'h' :: 'o' :: 't' :: _ => true
  | 'o' :: 'n' :: 'e' :: c :: 's' :: 'h' :: 'o' :: 't' :: _ => c.isWhitespace || c == '-'
  | _ => false

/-- Does the pattern match at some position of the (lowercased) list? -/
def oneShotSearch : List Char → Bool
  | [] => false
  | c :: rest => oneShotAt (c :: rest) || oneShotSearch rest

/-- `/one[\s-]?shot/i.test s` : case-insensitive search for the pattern. -/
def containsOneShot (s : String) : Bool :=
  oneShotSearch (s.data.map Char.toLower)

/-! ### Chapter normalization (source lines 79-90) -/

/-- Lines 83-88: `if (chap == null || /one[\s-]?shot/i.test(String(chap))) chap = '1'`.
The disjunction short-circuits exactly as `||` does in the source. -/
def normalizeChapter (chap : JSValue) : JSValue :=
  if chap = JSValue.null || containsOneShot (jsToString chap) then .str "1" else chap

/-- Line 90: `resolve(chap ?? '?')` applied to the normalized field — the value a
successful `doRequest` resolves with. -/
def doRequestValue (raw : JSValue) : JSValue :=
  match normalizeChapter raw with
  | .null => .str "?"
  | v => v

/-! ### `parseFloat` (used by `applyVisibility`, source line 111)

JS `parseFloat`: skip leading whitespace, then take the longest prefix of the
form `[+-]? (Infinity | digits [. digits?] | . digits) ([eE][+-]?digits)?`;
NaN when no such prefix exists.  The numeric value is modelled exactly as a
rational (every value the filter compares is an exact decimal well inside
double range). -/

inductive PFloat
  | nan
  | inf (pos : Bool)
  | num (q : ℚ)
deriving DecidableEq

/-- Longest digit prefix and the remainder. -/
def takeDigits : List Char → List Char × List Char
  | [] => ([], [])
  | c :: rest =>
    if c.isDigit then
      let (ds, r) := takeDigits rest
      (c :: ds, r)
    else ([], c :: rest)

def digitsToNat (ds : List Char) : Nat :=
  ds.foldl (fun acc c => acc * 10 + (c.toNat - '0'.toNat)) 0

/-- Optional sign; `true` means non-negative. -/
def takeSign : List Char → Bool × List Char
  | '+' :: r => (true, r)
  | '-' :: r => (false, r)
  | r => (true, r)

/-- Value of a trailing exponent part; `0` when no well-formed exponent follows
(JS then simply stops consuming input there). -/
def exponentValue (cs : List Char) : Int :=
  match cs with
  | 'e' :: r =>
    let (epos, r2) := takeSign r
    let (eds, _) := takeDigits r2
    if eds = [] then 0
    else if epos then (digitsToNat eds : Int) else -(digitsToNat eds : Int)
  | 'E' :: r =>
    let (epos, r2) := takeSign r
    let (eds, _) := takeDigits r2
    if eds = [] then 0
    else if epos then (digitsToNat eds : Int) else -(digitsToNat eds : Int)
  | _ => 0

def parseFloatChars (cs : List Char) : PFloat :=
  let cs0 := cs.dropWhile Char.isWhitespace
  let (pos, cs1) := takeSign cs0
  match cs1 with
  | 'I' :: 'n' :: 'f' :: 'i' :: 'n' :: 'i' :: 't' :: 'y' :: _ => .inf pos
  | cs2 =>
    let (ip, r1) := takeDigits cs2
    let (fp, r2) :=
      match r1 with
      | '.' :: r => takeDigits r
      | _ => ([], r1)
    if ip = [] ∧ fp = [] then .nan
    else
      let m : Nat := digitsToNat ip * 10 ^ fp.length + digitsToNat fp
      let sm : Int := if pos then (m : Int) else -(m : Int)
      .num (match exponentValue r2 - (fp.length : Int) with
            | .ofNat n => mkRat (sm * ((10 ^ n : Nat) : Int)) 1
            | .negSucc n => mkRat sm (10 ^ (n + 1)))

def parseFloat (s : String) : PFloat :=
  parseFloatChars s.data

/-- `Number.isNaN n` for the parse result. -/
def pfIsNaN : PFloat → Bool
  | .nan => true
  | _ => false

/-- `n < m` for the parse result against a finite threshold (`NaN < m` is false,
`-Infinity < m` is true, `Infinity < m` is false). -/
def pfLt : PFloat → ℚ → Bool
  | .nan, _ => false
  | .inf pos, _ => !pos
  | .num q, m => decide (q < m)

/-! ### The card and `applyVisibility` (source lines 110-114) -/

/-- The slice of a `.manga-card` DOM node the script reads and writes:
the badge's text, `dataset.chap` (`none` = attribute never set; reading it then
yields `undefined`, and `parseFloat(undefined)` scans the string `"undefined"`),
and `style.display`. -/
structure Card where
  badge : String
  chap : Option String
  display : String
deriving DecidableEq

/-- Lines 110-114: hide iff `!Number.isNaN(n) && minChapters > 0 && n < minChapters`
where `n = parseFloat(card.dataset.chap)`. -/
def applyVisibility (minChapters : ℚ) (card : Card) : Card :=
  let n := parseFloat (card.chap.getD "undefined")
  { card with display := if !pfIsNaN n && decide (0 < minChapters) && pfLt n minChapters then "none" else "" }

/-- Modelled from the claim side ("items whose resolved chapter value is
numeric and less than N"), to compare with what `applyVisibility` hides: the
string the filter reads parses to a numeric (non-NaN) value below the
threshold. -/
def specNumericBelow (N : ℚ) (chapStr : String) : Prop :=
  pfIsNaN (parseFloat chapStr) = false ∧ pfLt (parseFloat chapStr) N = true

/-! ### The async job queue (source lines 42-53)

```
const queue = [];
let active  = 0;
const runJob = job => new Promise(async resolve => {
  queue.push({ job, resolve });
  while (active >= CONCURRENCY_LIMIT) await sleep(50);
  const { job: j, resolve: res } = queue.shift();
  active++;
  try   { res(await j()); }
  catch (e) { res(null); }
  finally { active--; }
});
```

JavaScript is single-threaded and cooperative: control changes hands only at
`await`.  Each `runJob` call is therefore a task whose atomic steps are the
synchronous blocks between awaits:
  * invocation up to the first `await sleep(50)` (push, then either admit
    immediately when `active < CONCURRENCY_LIMIT`, or start waiting);
  * waking from `sleep` (re-check the guard; on success shift the queue head,
    increment `active`, start the shifted entry's job);
  * completion of the job's promise (resolve the shifted entry's promise with
    the job's value, or with `null` when it threw/rejected, then decrement
    `active`).
Tasks are numbered; task `i` submits job `i` and owns promise `i`. Job bodies
are abstracted by `jobs : Nat → JobResult α`: what job `i`'s call eventually
does.  The scheduler (which task steps next) is fully nondeterministic, which
covers every timer/network interleaving the browser could produce. -/

/-- What a submitted zero-argument async job does when executed. -/
inductive JobResult (α : Type)
  | returns (v : Option α)
  | throws
deriving DecidableEq

/-- `try { res(await j()); } catch (e) { res(null); }` — the value passed to the
submitter's `resolve`: the job's own value, or `null` when it threw. -/
def runJobValue {α : Type} (j : JobResult α) : Option α :=
  match j with
  | .returns v => v
  | .throws => none

/-- How a promise got settled (`resolvedWith none` is resolution with `null`). -/
inductive Settlement (α : Type)
  | resolvedWith (v : Option α)
  | rejected
deriving DecidableEq

/-- A queue entry `{ job, resolve }`: the pushed closure and the pushing call's
`resolve`, travelling together.  Both fields are the pushing task's index, but
they are consumed independently by whichever task shifts the entry. -/
structure Entry where
  job : Nat
  res : Nat
deriving DecidableEq

/-- Where one `runJob` task stands between atomic steps. -/
inductive Phase
  | idle
  | waiting
  | running (e : Entry)
  | done
deriving DecidableEq

def isRunning : Phase → Bool
  | .running _ => true
  | _ => false

def isWaiting : Phase → Bool
  | .waiting => true
  | _ => false

/-- The runner's shared state: the pending `queue`, the `active` counter, each
task's phase, and the promise settlements performed so far (promise index
paired with how it was settled). -/
structure RunnerState (α : Type) where
  queue : List Entry
  active : Nat
  phases : List Phase
  settled : List (Nat × Settlement α)

/-- Number of jobs currently executing. -/
def countRunning (ps : List Phase) : Nat := ps.countP isRunning

/-- One atomic step of the cooperative runner. -/
inductive Step {α : Type} (jobs : Nat → JobResult α) :
    RunnerState α → RunnerState α → Prop
  /-- Task `i` is invoked and the guard is open: push `{job, resolve}`, skip the
  `while` loop, shift the queue head, `active++`, begin executing it. -/
  | startRun (i : Nat) (s : RunnerState α) (e : Entry) (rest : List Entry)
      (hp : s.phases[i]? = some Phase.idle)
      (hg : s.active < CONCURRENCY_LIMIT)
      (hq : s.queue ++ [⟨i, i⟩] = e :: rest) :
      Step jobs s ⟨rest, s.active + 1, s.phases.set i (Phase.running e), s.settled⟩
  /-- Task `i` is invoked while the runner is saturated: push the entry and
  enter the `sleep` loop. -/
  | startWait (i : Nat) (s : RunnerState α)
      (hp : s.phases[i]? = some Phase.idle)
      (hg : CONCURRENCY_LIMIT ≤ s.active) :
      Step jobs s ⟨s.queue ++ [⟨i, i⟩], s.active, s.phases.set i Phase.waiting, s.settled⟩
  /-- A sleeping task wakes and finds the guard open: shift the queue head,
  `active++`, begin executing it.  (Waking to a still-saturated runner just
  sleeps again — a stutter, not a step.) -/
  | wake (i : Nat) (s : RunnerState α) (e : Entry) (rest : List Entry)
      (hp : s.phases[i]? = some Phase.waiting)
      (hg : s.active < CONCURRENCY_LIMIT)
      (hq : s.queue = e :: rest) :
      Step jobs s ⟨rest, s.active + 1, s.phases.set i (Phase.running e), s.settled⟩
  /-- The job a task is executing settles: `res(...)` delivers the job's value
  (or `null` if it threw) to the entry's `resolve`, and `finally { active-- }`
  releases the slot on every exit path. -/
  | finish (i : Nat) (s : RunnerState α) (e : Entry)
      (hp : s.phases[i]? = some (Phase.running e)) :
      Step jobs s ⟨s.queue, s.active - 1, s.phases.set i Phase.done,
                   s.settled ++ [(e.res, Settlement.resolvedWith (runJobValue (jobs e.job)))]⟩

/-- Before any submission: empty queue, `active = 0`, `N` tasks not yet invoked. -/
def initState (α : Type) (N : Nat) : RunnerState α := ⟨[], 0, List.replicate N Phase.idle, []⟩

/-- States the runner can be in after any interleaving of a burst of `N` calls. -/
def Reachable {α : Type} (jobs : Nat → JobResult α) (N : Nat) : RunnerState α → Prop :=
  Relation.ReflTransGen (Step jobs) (initState α N)

/-- The inductive invariant of the runner. -/
structure RunnerInv {α : Type} (jobs : Nat → JobResult α) (s : RunnerState α) : Prop where
  active_eq : s.active = countRunning s.phases
  cap : s.active ≤ CONCURRENCY_LIMIT
  queue_len : s.queue.length = s.phases.countP isWaiting
  queue_own : ∀ e ∈ s.queue, e.res = e.job
  running_own : ∀ (i : Nat) (e : Entry), s.phases[i]? = some (Phase.running e) → e.res = e.job
  settled_own : ∀ p ∈ s.settled, p.2 = Settlement.resolvedWith (runJobValue (jobs p.1))

/-- A burst of one submission whose job throws. -/
def throwJobs : Nat → JobResult Nat := fun _ => JobResult.throws

/-- A burst of one submission whose job returns 42. -/
def retJobs : Nat → JobResult Nat := fun _ => JobResult.returns (some 42)

/-! ### `fetchLatestChapter` (source lines 58-104)

`doRequest` performs one network call: on HTTP 200 with a parseable body it
resolves with the normalized chapter field, on any error status / network
error / timeout / abort / parse failure it rejects.  The network's behaviour
on attempt `a` is abstracted by `net a`. -/

/-- Outcome of the network call of one attempt. -/
inductive NetResult
  | ok (rawChapter : JSValue)
  | fail
deriving DecidableEq

/-- `doRequest` as a job: resolves with the normalized chapter on success
(lines 74-91), rejects on error/timeout/abort/parse failure (lines 91-95). -/
def doRequestJob (r : NetResult) : JobResult JSValue :=
  match r with
  | .ok raw => .returns (some (doRequestValue raw))
  | .fail => .throws

/-- The settlement of the promise `runJob job` returns, as the sequential
awaiter observes it: the executor resolves in both the `try` and the `catch`
branch, so it always settles by resolution with `runJobValue job`. -/
def runJobPromise {α : Type} (j : JobResult α) : Settlement α :=
  .resolvedWith (runJobValue j)

/-- `await p`: the value of a resolved promise, or a thrown error for a
rejected one. -/
def awaitSettlement {α : Type} (s : Settlement α) : Except Unit (Option α) :=
  match s with
  | .resolvedWith v => .ok v
  | .rejected => .error ()

/-- What `fetchLatestChapter` resolves with. -/
inductive FetchRet
  | value (v : JSValue)
  | nullv
  | question
deriving DecidableEq

/-- Lines 99-103, the `for (a = 0; a < SHORT_RETRY_COUNT; a++)` loop, with the
remaining iteration count `budget = SHORT_RETRY_COUNT - a` made explicit
(`budget = 0` exactly when the loop guard `a < SHORT_RETRY_COUNT` fails).
Returns the resolved value, the number of `doRequest` attempts made, and the
list of backoff sleeps performed. -/
def fetchLoop (net : Nat → NetResult) (a : Nat) : Nat → FetchRet × Nat × List Nat
  | 0 => (.question, 0, [])
  | budget + 1 =>
    match awaitSettlement (runJobPromise (doRequestJob (net a))) with
    | .ok r => ((match r with | some v => .value v | none => .nullv), 1, [])
    | .error _ =>
      let rest := fetchLoop net (a + 1) budget
      (rest.1, rest.2.1 + 1, SHORT_RETRY_BASE * 2 ^ a :: rest.2.2)

/-- `fetchLatestChapter` for a given manga id, abstracted over the network's
per-attempt behaviour. -/
def fetchLatestChapter (net : Nat → NetResult) : FetchRet × Nat × List Nat :=
  fetchLoop net 0 SHORT_RETRY_COUNT

/-! ### `tryFillBadge` (source lines 116-140) and `enhanceCard` (142-171) -/

/-- Observable events of one resolution session: a resolver invocation
(`fetchLatestChapter` at step `k`, with its result), a long-retry timer being
armed with its delay, a final successful fill, or giving up. -/
inductive OrchEvent
  | resolverCall (k : Nat) (r : FetchRet)
  | scheduled (delay : Nat)
  | resolvedFinal (v : JSValue)
  | gaveUp
deriving DecidableEq

/-- Line 121, `chap !== '?' && chap != null`: the successful value, if any.
(`!==` only equates the literal string `'?'`; `!= null` catches both the
`null` the runner substitutes for a failed request and a hypothetical null
value.) -/
def succOf : FetchRet → Option JSValue
  | .value (.str s) => if s = "?" then none else some (.str s)
  | .value (.num r) => some (.num r)
  | .value .null => none
  | .nullv => none
  | .question => none

/-- Lines 116-140 with the remaining long-retry budget
`budget = LONG_RETRY_MAX - longTry` made explicit (`budget = 0` exactly when
the guard `longTry < LONG_RETRY_MAX` on line 129 fails).  `live k` is whether
`document.body.contains(card)` holds when the session's `k`-th invocation
fires; `res k` is what `fetchLatestChapter` resolves with at that invocation.
Returns the final card and the session's event trace. -/
def tryFillBadgeGo (minChapters : ℚ) (live : Nat → Bool) (res : Nat → FetchRet) :
    Nat → Card → Nat → Nat → Card × List OrchEvent
  | budget, card, k, longTry =>
    if live k = false then (card, [])
    else
      match succOf (res k) with
      | some v =>
        (applyVisibility minChapters
          { card with badge := jsToString v, chap := some (jsToString v) },
         [.resolverCall k (res k), .resolvedFinal v])
      | none =>
        match budget with
        | b + 1 =>
          let rest := tryFillBadgeGo minChapters live res b
            { card with badge := "…", chap := some "" } (k + 1) (longTry + 1)
          (rest.1, .resolverCall k (res k) :: .scheduled (LONG_RETRY_BASE * 2 ^ longTry) :: rest.2)
        | 0 =>
          ({ card with badge := "?", chap := some "" }, [.resolverCall k (res k), .gaveUp])

/-- A session entered at `tryFillBadge(card, mangaId, badge, longTry)`. -/
def tryFillBadge (minChapters : ℚ) (live : Nat → Bool) (res : Nat → FetchRet)
    (card : Card) (k : Nat) (longTry : Nat) : Card × List OrchEvent :=
  tryFillBadgeGo minChapters live res (LONG_RETRY_MAX - longTry) card k longTry

/-- What `enhanceCard` decides to do with a discovered card. -/
inductive EnhanceOutcome
  | skippedProcessed
  | noCover
  | markedUnknown
  | sessionStarted (id : String)
deriving DecidableEq

/-- Lines 142-171.  Inputs: whether the card is already in the `processed` set,
whether it has a `.manga-card-cover`, and the `href` of its first
`a[href*="/title/"]` anchor (`none` when there is no such anchor).  Returns
the decision and the badge text as left by `enhanceCard` itself (`none` when
the function returned before creating the badge). -/
def enhanceCard (processed : Bool) (hasCover : Bool) (href : Option String) :
    EnhanceOutcome × Option String :=
  if processed then (.skippedProcessed, none)
  else if hasCover = false then (.noCover, none)
  else
    match href.bind (fun h => (h.splitOn "/")[2]?) with
    | none => (.markedUnknown, some "?")
    | some mangaId =>
      if mangaId = "" then (.markedUnknown, some "?")
      else (.sessionStarted mangaId, some "…")

/-- Network attempts a discovered card generates: a card whose session starts
runs `tryFillBadge`; any other outcome performs none. -/
def enhanceAttempts (out : EnhanceOutcome) (minChapters : ℚ) (live : Nat → Bool)
    (res : Nat → FetchRet) : Nat :=
  match out with
  | .sessionStarted _ =>
    ((tryFillBadge minChapters live res ⟨"…", none, ""⟩ 0 0).2.countP
      (fun ev => match ev with | .resolverCall _ _ => true | _ => false))
  | _ => 0



/-- Auxiliary: how `countP` changes when one position of a list is overwritten. -/
lemma countP_set_balance {β : Type} (q : β → Bool) (l : List β) (i : Nat) (b a : β)
    (h : l[i]? = some a) :
    (l.set i b).countP q + (if q a then 1 else 0) = l.countP q + (if q b then 1 else 0) := by
  induction l generalizing i with
  | nil => simp at h
  | cons x xs ih =>
    cases i with
    | zero =>
      rw [List.getElem?_cons_zero, Option.some.injEq] at h
      subst h
      rw [List.set_cons_zero, List.countP_cons, List.countP_cons]
      omega
    | succ n =>
      rw [List.getElem?_cons_succ] at h
      rw [List.set_cons_succ, List.countP_cons, List.countP_cons]
      have := ih n h
      omega

lemma countP_replicate_false {β : Type} (q : β → Bool) (a : β) (hq : q a = false) :
    ∀ n, (List.replicate n a).countP q = 0 := by
  intro n
  induction n with
  | zero => rfl
  | succ m ih => rw [List.replicate_succ, List.countP_cons, ih, hq]; rfl

@[simp] lemma isRunning_idle : isRunning Phase.idle = false := rfl

@[simp] lemma isRunning_waiting : isRunning Phase.waiting = false := rfl

@[simp] lemma isRunning_running (e : Entry) : isRunning (Phase.running e) = true := rfl

@[simp] lemma isRunning_done : isRunning Phase.done = false := rfl

@[simp] lemma isWaiting_idle : isWaiting Phase.idle = false := rfl

@[simp] lemma isWaiting_waiting : isWaiting Phase.waiting = true := rfl

@[simp] lemma isWaiting_running (e : Entry) : isWaiting (Phase.running e) = false := rfl

@[simp] lemma isWaiting_done : isWaiting Phase.done = false := rfl

lemma runnerInv_init {α : Type} (jobs : Nat → JobResult α) (N : Nat) :
    RunnerInv jobs (initState α N) := by
  refine ⟨?_, ?_, ?_, ?_, ?_, ?_⟩
  · show 0 = countRunning (List.replicate N Phase.idle)
    rw [countRunning, countP_replicate_false isRunning Phase.idle rfl]
  · exact Nat.zero_le _
  · show 0 = (List.replicate N Phase.idle).countP isWaiting
    rw [countP_replicate_false isWaiting Phase.idle rfl]
  · intro e he; simp [initState] at he
  · intro i e h
    have hm := List.getElem?_mem h
    have := List.eq_of_mem_replicate hm
    cases this
  · intro p hp; simp [initState] at hp

lemma runnerInv_step {α : Type} {jobs : Nat → JobResult α} {s s' : RunnerState α}
    (hI : RunnerInv jobs s) (hs : Step jobs s s') : RunnerInv jobs s' := by
  cases hs with
  | startRun i s e rest hp hg hq =>
    have hlen : i < s.phases.length := (List.getElem?_eq_some.mp hp).1
    have hbal := countP_set_balance isRunning s.phases i (Phase.running e) Phase.idle hp
    have hbalW := countP_set_balance isWaiting s.phases i (Phase.running e) Phase.idle hp
    have hmem_e : e ∈ s.queue ++ [⟨i, i⟩] := by rw [hq]; exact List.mem_cons_self e rest
    have he_own : e.res = e.job := by
      rcases List.mem_append.mp hmem_e with h | h
      · exact hI.queue_own e h
      · rcases List.mem_singleton.mp h with rfl; rfl
    refine ⟨?_, ?_, ?_, ?_, ?_, ?_⟩
    · show s.active + 1 = countRunning (s.phases.set i (Phase.running e))
      have := hI.active_eq
      simp only [countRunning] at *
      simp at hbal
      omega
    · exact hg
    · show rest.length = (s.phases.set i (Phase.running e)).countP isWaiting
      have hql : s.queue.length + 1 = rest.length + 1 := by
        have := congrArg List.length hq
        simpa using this
      have := hI.queue_len
      simp at hbalW
      omega
    · intro e' he'
      have : e' ∈ s.queue ++ [⟨i, i⟩] := by rw [hq]; exact List.mem_cons_of_mem e he'
      rcases List.mem_append.mp this with h | h
      · exact hI.queue_own e' h
      · rcases List.mem_singleton.mp h with rfl; rfl
    · intro j e' hj
      by_cases hij : i = j
      · subst hij
        rw [List.getElem?_set_eq_of_lt _ hlen, Option.some.injEq] at hj
        cases hj
        exact he_own
      · rw [List.getElem?_set_ne hij] at hj
        exact hI.running_own j e' hj
    · exact hI.settled_own
  | startWait i s hp hg =>
    have hlen : i < s.phases.length := (List.getElem?_eq_some.mp hp).1
    have hbal := countP_set_balance isRunning s.phases i Phase.waiting Phase.idle hp
    have hbalW := countP_set_balance isWaiting s.phases i Phase.waiting Phase.idle hp
    refine ⟨?_, ?_, ?_, ?_, ?_, ?_⟩
    · show s.active = countRunning (s.phases.set i Phase.waiting)
      have := hI.active_eq
      simp only [countRunning] at *
      simp at hbal
      omega
    · exact hI.cap
    · show (s.queue ++ [Entry.mk i i]).length = (s.phases.set i Phase.waiting).countP isWaiting
      have := hI.queue_len
      simp at hbalW
      simp
      omega
    · intro e' he'
      rcases List.mem_append.mp he' with h | h
      · exact hI.queue_own e' h
      · rcases List.mem_singleton.mp h with rfl; rfl
    · intro j e' hj
      by_cases hij : i = j
      · subst hij
        rw [List.getElem?_set_eq_of_lt _ hlen, Option.some.injEq] at hj
        cases hj
      · rw [List.getElem?_set_ne hij] at hj
        exact hI.running_own j e' hj
    · exact hI.settled_own
  | wake i s e rest hp hg hq =>
    have hlen : i < s.phases.length := (List.getElem?_eq_some.mp hp).1
    have hbal := countP_set_balance isRunning s.phases i (Phase.running e) Phase.waiting hp
    have hbalW := countP_set_balance isWaiting s.phases i (Phase.running e) Phase.waiting hp
    have hmem_e : e ∈ s.queue := by rw [hq]; exact List.mem_cons_self e rest
    have he_own : e.res = e.job := hI.queue_own e hmem_e
    refine ⟨?_, ?_, ?_, ?_, ?_, ?_⟩
    · show s.active + 1 = countRunning (s.phases.set i (Phase.running e))
      have := hI.active_eq
      simp only [countRunning] at *
      simp at hbal
      omega
    · exact hg
    · show rest.length = (s.phases.set i (Phase.running e)).countP isWaiting
      have hql : s.queue.length = rest.length + 1 := by rw [hq]; rfl
      have := hI.queue_len
      simp at hbalW
      omega
    · intro e' he'
      exact hI.queue_own e' (by rw [hq]; exact List.mem_cons_of_mem e he')
    · intro j e' hj
      by_cases hij : i = j
      · subst hij
        rw [List.getElem?_set_eq_of_lt _ hlen, Option.some.injEq] at hj
        cases hj
        exact he_own
      · rw [List.getElem?_set_ne hij] at hj
        exact hI.running_own j e' hj
    · exact hI.settled_own
  | finish i s e hp =>
    have hlen : i < s.phases.length := (List.getElem?_eq_some.mp hp).1
    have hbal := countP_set_balance isRunning s.phases i Phase.done (Phase.running e) hp
    have hbalW := countP_set_balance isWaiting s.phases i Phase.done (Phase.running e) hp
    have hpos : 0 < List.countP isRunning s.phases :=
      List.countP_pos_iff.mpr ⟨Phase.running e, List.getElem?_mem hp, rfl⟩
    refine ⟨?_, ?_, ?_, ?_, ?_, ?_⟩
    · show s.active - 1 = countRunning (s.phases.set i Phase.done)
      have := hI.active_eq
      simp only [countRunning] at *
      simp at hbal
      omega
    · exact Nat.le_trans (Nat.sub_le _ _) hI.cap
    · show s.queue.length = (s.phases.set i Phase.done).countP isWaiting
      have := hI.queue_len
      simp at hbalW
      omega
    · exact hI.queue_own
    · intro j e' hj
      by_cases hij : i = j
      · subst hij
        rw [List.getElem?_set_eq_of_lt _ hlen, Option.some.injEq] at hj
        cases hj
      · rw [List.getElem?_set_ne hij] at hj
        exact hI.running_own j e' hj
    · intro p hpmem
      rcases List.mem_append.mp hpmem with h | h
      · exact hI.settled_own p h
      · rcases List.mem_singleton.mp h with rfl
        have := hI.running_own i e hp
        simp [this]

lemma runnerInv_reachable {α : Type} {jobs : Nat → JobResult α} {N : Nat}
    {s : RunnerState α} (h : Reachable jobs N s) : RunnerInv jobs s := by
  induction h with
  | refl => exact runnerInv_init jobs N
  | tail hab hbc ih => exact runnerInv_step ih hbc

end Mangadex

namespace Mangadex

/-- Helper for the cancellation claim: every resolver invocation recorded in a
session trace happened at a step where the card was still attached. -/
lemma tryFillBadgeGo_calls_live (minC : ℚ) (live : Nat → Bool) (res : Nat → FetchRet) :
    ∀ (budget : Nat) (card : Card) (k longTry j : Nat) (r : FetchRet),
      OrchEvent.resolverCall j r ∈ (tryFillBadgeGo minC live res budget card k longTry).2 →
      live j = true := by
  intro budget
  induction budget with
  | zero =>
    intro card k longTry j r h
    rw [tryFillBadgeGo] at h
    by_cases hl : live k = false
    · simp [hl] at h
    · have hk : live k = true := by revert hl; cases live k <;> simp
      rcases hs : succOf (res k) with _ | v <;> simp [hl, hs] at h
      · rcases h with ⟨hj, _⟩; rw [hj]; exact hk
      · rcases h with ⟨hj, _⟩; rw [hj]; exact hk
  | succ b ih =>
    intro card k longTry j r h
    rw [tryFillBadgeGo] at h
    by_cases hl : live k = false
    · simp [hl] at h
    · have hk : live k = true := by revert hl; cases live k <;> simp
      rcases hs : succOf (res k) with _ | v <;> simp [hl, hs] at h
      · rcases h with ⟨hj, _⟩ | h
        · rw [hj]; exact hk
        · exact ih _ _ _ _ _ h
      · rcases h with ⟨hj, _⟩; rw [hj]; exact hk


/-- Helper: a session invocation on a card that is no longer attached returns
immediately: no resolver call, no timer, card untouched. -/
lemma tryFillBadgeGo_dead (minC : ℚ) (live : Nat → Bool) (res : Nat → FetchRet)
    (budget : Nat) (card : Card) (k longTry : Nat) (hdead : live k = false) :
    tryFillBadgeGo minC live res budget card k longTry = (card, []) := by
  cases budget <;> rw [tryFillBadgeGo] <;> simp [hdead]

/-- The throwing single-job burst can run to completion: submit-and-admit,
then finish (the catch branch resolves the promise with null). -/
lemma throwRun_reachable :
    Reachable throwJobs 1 ⟨[], 0, [Phase.done], [(0, Settlement.resolvedWith none)]⟩ := by
  have h1 : Step throwJobs (initState Nat 1) ⟨[], 1, [Phase.running ⟨0, 0⟩], []⟩ :=
    @Step.startRun Nat throwJobs 0 (initState Nat 1) ⟨0, 0⟩ [] rfl (by decide) rfl
  have h2 : Step throwJobs ⟨[], 1, [Phase.running ⟨0, 0⟩], []⟩
      ⟨[], 0, [Phase.done], [(0, Settlement.resolvedWith none)]⟩ :=
    @Step.finish Nat throwJobs 0 ⟨[], 1, [Phase.running ⟨0, 0⟩], []⟩ ⟨0, 0⟩ rfl
  exact Relation.ReflTransGen.tail (Relation.ReflTransGen.tail Relation.ReflTransGen.refl h1) h2

/-- The returning single-job burst can run to completion. -/
lemma retRun_reachable :
    Reachable retJobs 1 ⟨[], 0, [Phase.done], [(0, Settlement.resolvedWith (some 42))]⟩ := by
  have h1 : Step retJobs (initState Nat 1) ⟨[], 1, [Phase.running ⟨0, 0⟩], []⟩ :=
    @Step.startRun Nat retJobs 0 (initState Nat 1) ⟨0, 0⟩ [] rfl (by decide) rfl
  have h2 : Step retJobs ⟨[], 1, [Phase.running ⟨0, 0⟩], []⟩
      ⟨[], 0, [Phase.done], [(0, Settlement.resolvedWith (some 42))]⟩ :=
    @Step.finish Nat retJobs 0 ⟨[], 1, [Phase.running ⟨0, 0⟩], []⟩ ⟨0, 0⟩ rfl
  exact Relation.ReflTransGen.tail (Relation.ReflTransGen.tail Relation.ReflTransGen.refl h1) h2

/-- C8: once a card's handle is no longer live (the card is absent from the
page), no further resolver attempt is made for it: each orchestrator
invocation — including one fired by an already-pending retry timer — re-checks
`document.body.contains(card)` first and aborts without calling the resolver
and without scheduling further work; more generally, every resolver call in a
session trace happens at a step where the card is still live. -/
theorem tryFillBadge_no_attempt_after_removal (minC : ℚ) (live : Nat → Bool)
    (res : Nat → FetchRet) (card : Card) (k longTry : Nat) :
    (live k = false → tryFillBadge minC live res card k longTry = (card, [])) ∧
    (∀ (j : Nat) (r : FetchRet),
      OrchEvent.resolverCall j r ∈ (tryFillBadge minC live res card k longTry).2 →
      live j = true) := by
  constructor
  · intro hdead
    exact tryFillBadgeGo_dead minC live res _ card k longTry hdead
  · intro j r h
    exact tryFillBadgeGo_calls_live minC live res _ card k longTry j r h

/-- Witness for the cancellation theorem at a concrete removed card: the
pending invocation aborts, leaving the card untouched and making no call. -/
theorem tryFillBadge_no_attempt_after_removal_witness :
    tryFillBadge 0 (fun _ => false) (fun _ => FetchRet.question) ⟨"…", none, ""⟩ 0 3 =
      (⟨"…", none, ""⟩, []) :=
  (tryFillBadge_no_attempt_after_removal 0 (fun _ => false) (fun _ => FetchRet.question)
    ⟨"…", none, ""⟩ 0 3).1 rfl

/-- C6: a session whose resolver yields the failure token `"?"` at every
invocation, on a card that stays on the page, schedules exactly
`LONG_RETRY_MAX = 6` long retries whose delays are
`LONG_RETRY_BASE * 2 ^ 0 .. LONG_RETRY_BASE * 2 ^ 5` (5s, 10s, 20s, 40s, 80s,
160s), then settles in the terminal Unknown state (badge `"?"`,
`dataset.chap = ""`), which the visibility filter never hides at any
threshold. -/
theorem tryFillBadge_exhausts_long_retries (minC : ℚ) :
    tryFillBadge minC (fun _ => true) (fun _ => FetchRet.question) ⟨"…", none, ""⟩ 0 0 =
      (⟨"?", some "", ""⟩,
       [.resolverCall 0 .question, .scheduled 5000,
        .resolverCall 1 .question, .scheduled 10000,
        .resolverCall 2 .question, .scheduled 20000,
        .resolverCall 3 .question, .scheduled 40000,
        .resolverCall 4 .question, .scheduled 80000,
        .resolverCall 5 .question, .scheduled 160000,
        .resolverCall 6 .question, .gaveUp]) ∧
    [5000, 10000, 20000, 40000, 80000, 160000] =
      (List.range LONG_RETRY_MAX).map (fun t => LONG_RETRY_BASE * 2 ^ t) ∧
    (∀ N : ℚ, (applyVisibility N ⟨"?", some "", ""⟩).display = "") :=
  ⟨rfl, by decide, fun _ => rfl⟩

/-- C4: a raw chapter field that is `null`/absent, or whose string form matches
the case-insensitive one-shot pattern (`Oneshot`, `One-Shot`, `one shot`, …),
normalizes to exactly the string `"1"`. -/
theorem normalize_oneshot_is_one (raw : JSValue)
    (h : raw = JSValue.null ∨ containsOneShot (jsToString raw) = true) :
    doRequestValue raw = JSValue.str "1" := by
  rcases h with h | h
  · rw [h]; rfl
  · rcases raw with _ | s | r
    · rfl
    · rw [doRequestValue, normalizeChapter, h]; rfl
    · rw [doRequestValue, normalizeChapter, h]; rfl

/-- Witness: the raw string `"One-Shot"` normalizes to `"1"`. -/
theorem normalize_oneshot_is_one_witness :
    doRequestValue (JSValue.str "One-Shot") = JSValue.str "1" :=
  normalize_oneshot_is_one (JSValue.str "One-Shot") (Or.inr (by decide))

/-- C5 counterexample: for a numeric raw chapter value the normalized output is
the number itself, passed through verbatim — it is not a JS string, so it is
not equal to the string `String(raw)` the claim promises (`87.5 !== "87.5"`). -/
theorem normalize_not_always_string :
    doRequestValue (JSValue.num "87.5") = JSValue.num "87.5" ∧
    doRequestValue (JSValue.num "87.5") ≠ JSValue.str (jsToString (JSValue.num "87.5")) := by
  decide

/-- C5 (amended): for every raw chapter value that is not `null` and does not
match the one-shot pattern, normalization passes the value through verbatim
(the identity), so its string form — what the badge displays — equals
`String(raw)`; but the value itself keeps its original type rather than being
converted to a string. -/
theorem normalize_identity_verbatim (raw : JSValue)
    (hn : raw ≠ JSValue.null) (ho : containsOneShot (jsToString raw) = false) :
    doRequestValue raw = raw ∧ jsToString (doRequestValue raw) = jsToString raw := by
  have hid : doRequestValue raw = raw := by
    rcases raw with _ | s | r
    · exact absurd rfl hn
    · rw [doRequestValue, normalizeChapter, ho]; rfl
    · rw [doRequestValue, normalizeChapter, ho]; rfl
  exact ⟨hid, by rw [hid]⟩

/-- Witness: the plain chapter string `"87.5"` is passed through unchanged. -/
theorem normalize_identity_verbatim_witness :
    doRequestValue (JSValue.str "87.5") = JSValue.str "87.5" ∧
    jsToString (doRequestValue (JSValue.str "87.5")) = jsToString (JSValue.str "87.5") :=
  normalize_identity_verbatim (JSValue.str "87.5") (by decide) (by decide)

/-- C7 counterexample: at threshold `N = 0` (the script's default) a card whose
resolved value `-5` is numeric and below `N` is nevertheless left visible,
because the filter additionally requires `minChapters > 0`; so the filter does
not hide exactly the numeric-below-`N` items for every threshold. -/
theorem applyVisibility_claim_counterexample :
    specNumericBelow 0 "-5" ∧
    (applyVisibility 0 ⟨"-5", some "-5", ""⟩).display = "" := by
  constructor
  · exact ⟨by decide, by decide⟩
  · decide

/-- C7 (amended): for a positive threshold `N` the filter hides exactly the
cards whose `dataset.chap` parses to a numeric value below `N`; for `N ≤ 0`
nothing is hidden; and a Pending or Unknown card (whose `dataset.chap` is the
empty string, or unset) is never hidden. -/
theorem applyVisibility_hides_iff (N : ℚ) (card : Card) :
    ((applyVisibility N card).display = "none" ↔
      specNumericBelow N (card.chap.getD "undefined") ∧ 0 < N) ∧
    ((card.chap = some "" ∨ card.chap = none) → (applyVisibility N card).display = "") := by
  constructor
  · rw [applyVisibility, specNumericBelow]
    rcases hq : parseFloat (card.chap.getD "undefined") with _ | p | q
    · simp [pfIsNaN]
    · by_cases hN : (0 : ℚ) < N <;> by_cases hp : p <;> simp [pfIsNaN, pfLt, hN, hp]
    · by_cases hN : (0 : ℚ) < N <;> by_cases hlt : q < N <;> simp [pfIsNaN, pfLt, hN, hlt]
  · rintro (h | h) <;> rcases card with ⟨cb, cc, cd⟩ <;> simp only at h <;> subst h <;> rfl

/-- Witness for the amended filter theorem: a card resolved to `"1"` is hidden
at threshold `2` (numeric, `1 < 2 > 0`). -/
theorem applyVisibility_hides_iff_witness :
    (applyVisibility 2 ⟨"1", some "1", ""⟩).display = "none" :=
  (applyVisibility_hides_iff 2 ⟨"1", some "1", ""⟩).1.mpr ⟨⟨by decide, by decide⟩, by decide⟩

/-- C9: a discovered card (fresh, with a cover) from which no manga id can be
extracted — no `/title/` anchor, or an href whose third slash-component is
missing or empty — is immediately marked Unknown (badge `"?"`) and starts no
resolution session, so zero network attempts are made for it. -/
theorem enhanceCard_missing_id_unknown (href : Option String)
    (h : href.bind (fun s => (s.splitOn "/")[2]?) = none ∨
         href.bind (fun s => (s.splitOn "/")[2]?) = some "") :
    enhanceCard false true href = (EnhanceOutcome.markedUnknown, some "?") ∧
    (∀ (minC : ℚ) (live : Nat → Bool) (res : Nat → FetchRet),
      enhanceAttempts (enhanceCard false true href).1 minC live res = 0) := by
  have h1 : enhanceCard false true href = (EnhanceOutcome.markedUnknown, some "?") := by
    rw [enhanceCard]
    rcases h with h | h <;> simp [h]
  exact ⟨h1, fun minC live res => by rw [h1]; rfl⟩

/-- Witness: a card with no `/title/` anchor at all is marked Unknown with no
attempts. -/
theorem enhanceCard_missing_id_unknown_witness :
    enhanceCard false true none = (EnhanceOutcome.markedUnknown, some "?") ∧
    (∀ (minC : ℚ) (live : Nat → Bool) (res : Nat → FetchRet),
      enhanceAttempts (enhanceCard false true none).1 minC live res = 0) :=
  enhanceCard_missing_id_unknown none (Or.inl rfl)

/-- C2 (code behaviour at the claim's failing input): when every network
attempt fails, `fetchLatestChapter` makes exactly ONE `doRequest` attempt,
performs NO backoff sleeps, and resolves with `null` — not with `"?"` after
`SHORT_RETRY_COUNT = 10` attempts as the claim states.  The cause: `runJob`
converts the rejection of `doRequest` into a promise resolved with `null`, so
`await runJob(doRequest)` never throws, the `catch` branch of the short-retry
loop is dead code, and the loop returns on its first iteration. -/
theorem fetchLatestChapter_all_attempts_fail (net : Nat → NetResult)
    (h : ∀ a, net a = NetResult.fail) :
    fetchLatestChapter net = (FetchRet.nullv, 1, []) ∧
    (fetchLatestChapter net).2.1 ≠ SHORT_RETRY_COUNT ∧
    (fetchLatestChapter net).1 ≠ FetchRet.question := by
  have h1 : fetchLatestChapter net = (FetchRet.nullv, 1, []) := by
    rw [fetchLatestChapter, SHORT_RETRY_COUNT, fetchLoop, h 0]
    rfl
  refine ⟨h1, ?_, ?_⟩
  · rw [h1]; decide
  · rw [h1]; decide

/-- Witness: the always-failing network, concretely. -/
theorem fetchLatestChapter_all_attempts_fail_witness :
    fetchLatestChapter (fun _ => NetResult.fail) = (FetchRet.nullv, 1, []) ∧
    (fetchLatestChapter (fun _ => NetResult.fail)).2.1 ≠ SHORT_RETRY_COUNT ∧
    (fetchLatestChapter (fun _ => NetResult.fail)).1 ≠ FetchRet.question :=
  fetchLatestChapter_all_attempts_fail (fun _ => NetResult.fail) (fun _ => rfl)


/-- C1: for every burst of submissions and every interleaving, at no point are
more than `CONCURRENCY_LIMIT = 6` jobs executing simultaneously; the `active`
counter always equals the number of executing jobs (it is incremented before a
job runs and decremented after it finishes on every exit path); and whenever a
step moves some task into the executing phase, the pre-state's active count
was below `CONCURRENCY_LIMIT`. -/
theorem runJob_concurrency_cap {α : Type} (jobs : Nat → JobResult α) (N : Nat)
    (s : RunnerState α) (h : Reachable jobs N s) :
    (s.active = countRunning s.phases ∧ countRunning s.phases ≤ CONCURRENCY_LIMIT) ∧
    (∀ (s' : RunnerState α), Step jobs s s' →
      ∀ (i : Nat) (e : Entry), ¬ s.phases[i]? = some (Phase.running e) →
        s'.phases[i]? = some (Phase.running e) → s.active < CONCURRENCY_LIMIT) := by
  have hI := runnerInv_reachable h
  refine ⟨⟨hI.active_eq, hI.active_eq ▸ hI.cap⟩, ?_⟩
  intro s' st i e hne heq
  cases st with
  | startRun i0 _ e0 rest hp hg hq => exact hg
  | wake i0 _ e0 rest hp hg hq => exact hg
  | startWait i0 _ hp hg =>
    exfalso
    have hlen : i0 < s.phases.length := (List.getElem?_eq_some.mp hp).1
    have heq' : (s.phases.set i0 Phase.waiting)[i]? = some (Phase.running e) := heq
    by_cases hii : i0 = i
    · subst hii
      rw [List.getElem?_set_eq_of_lt _ hlen] at heq'
      simp at heq'
    · rw [List.getElem?_set_ne hii] at heq'
      exact hne heq'
  | finish i0 _ e0 hp =>
    exfalso
    have hlen : i0 < s.phases.length := (List.getElem?_eq_some.mp hp).1
    have heq' : (s.phases.set i0 Phase.done)[i]? = some (Phase.running e) := heq
    by_cases hii : i0 = i
    · subst hii
      rw [List.getElem?_set_eq_of_lt _ hlen] at heq'
      simp at heq'
    · rw [List.getElem?_set_ne hii] at heq'
      exact hne heq'

/-- Witness for the concurrency theorem at the (reachable) initial state of a
burst of 7 submissions of failing jobs. -/
theorem runJob_concurrency_cap_witness :
    (((initState Nat 7).active = countRunning (initState Nat 7).phases ∧
      countRunning (initState Nat 7).phases ≤ CONCURRENCY_LIMIT)) ∧
    (∀ (s' : RunnerState Nat), Step (fun _ => JobResult.throws) (initState Nat 7) s' →
      ∀ (i : Nat) (e : Entry), ¬ (initState Nat 7).phases[i]? = some (Phase.running e) →
        s'.phases[i]? = some (Phase.running e) →
        (initState Nat 7).active < CONCURRENCY_LIMIT) :=
  runJob_concurrency_cap (fun _ => JobResult.throws) 7 (initState Nat 7)
    Relation.ReflTransGen.refl

/-- C3: the promise a `runJob` call returns never rejects: every settlement the
runner ever performs is a resolution, and when the submitted job throws (or
its promise rejects) the returned promise is resolved with `null` instead of
propagating the failure. -/
theorem runJob_never_rejects {α : Type} (jobs : Nat → JobResult α) (N : Nat)
    (s : RunnerState α) (h : Reachable jobs N s) (i : Nat) (st : Settlement α)
    (hmem : (i, st) ∈ s.settled) :
    st ≠ Settlement.rejected ∧
    (jobs i = JobResult.throws → st = Settlement.resolvedWith none) := by
  have hval : st = Settlement.resolvedWith (runJobValue (jobs i)) :=
    (runnerInv_reachable h).settled_own (i, st) hmem
  constructor
  · rw [hval]
    intro hc
    cases hc
  · intro hthrow
    rw [hval, hthrow]
    rfl

/-- Witness: in the completed throwing run, promise 0 was settled by
resolution with `null`, not by rejection. -/
theorem runJob_never_rejects_witness :
    Settlement.resolvedWith (none : Option Nat) ≠ Settlement.rejected ∧
    (throwJobs 0 = JobResult.throws →
      Settlement.resolvedWith (none : Option Nat) = Settlement.resolvedWith none) :=
  runJob_never_rejects throwJobs 1 ⟨[], 0, [Phase.done], [(0, Settlement.resolvedWith none)]⟩
    throwRun_reachable 0 (Settlement.resolvedWith none) (List.mem_singleton.mpr rfl)

/-- C10: every settled promise is resolved with its own submitted job's
outcome (result, or `null` on failure), never with another job's: the
`{ job, resolve }` pair is pushed by one submitter and always consumed
together, even when the task that shifts and executes the entry is a
different submitter than the one that pushed it. -/
theorem runJob_resolves_own_outcome {α : Type} (jobs : Nat → JobResult α) (N : Nat)
    (s : RunnerState α) (h : Reachable jobs N s) (i : Nat) (st : Settlement α)
    (hmem : (i, st) ∈ s.settled) :
    st = Settlement.resolvedWith (runJobValue (jobs i)) :=
  (runnerInv_reachable h).settled_own (i, st) hmem

/-- Witness: in the completed returning run, promise 0 carries job 0's own
outcome 42. -/
theorem runJob_resolves_own_outcome_witness :
    Settlement.resolvedWith (some 42) =
      Settlement.resolvedWith (runJobValue (retJobs 0)) :=
  runJob_resolves_own_outcome retJobs 1
    ⟨[], 0, [Phase.done], [(0, Settlement.resolvedWith (some 42))]⟩
    retRun_reachable 0 (Settlement.resolvedWith (some 42)) (List.mem_singleton.mpr rfl)

end Mangadex
